import Mathlib

/-!
Shallow embedding of the BrainGrid simulation engine (epoch scheduler,
parameter loading, and the connection-growth bookkeeping) together with
proofs of the behavioural properties stated in the specification.

Conventions used throughout:
* `BGFLOAT` quantities of the C++ sources are embedded as `ℚ`
  (ideal real-valued arithmetic; the sources use them for durations,
  voltages and radii).
* the global `uint64_t g_simulationStep` counter is embedded as `ℕ`
  (its value stays far below `2^64` for every run of `maxSteps` epochs,
  so wrap-around is never reached).
* code whose implementation file is not part of the analysed sources
  (the `Network`/`LIFModel` method bodies) is modelled from the
  specification; every such definition carries a doc comment starting
  with `Modelled from the spec:`.
-/

/-- The subset of `SimulationInfo` fields populated by `makeSimulationInfo`
in the driver and consumed by `Simulator` (driver source, `makeSimulationInfo`). -/
structure SimulationInfo where
  totalNeurons : ℕ
  epochDuration : ℚ
  maxSteps : ℕ
  maxFiringRate : ℕ
  maxSynapsesPerNeuron : ℕ
  width : ℕ
  height : ℕ
  deltaT : ℚ
  seed : ℕ
deriving Repr

/-- Embedding of `makeSimulationInfo` from the driver: `maxGrowthSteps`
arrives as a `BGFLOAT` and is cast to `int` (truncation towards zero,
i.e. `Int.toNat ∘ Int.floor` on nonnegative rationals). -/
def makeSimulationInfo (cols rows : ℕ) (growthEpochDuration maxGrowthSteps : ℚ)
    (maxFiringRate maxSynapsesPerNeuron : ℕ) (new_deltaT : ℚ) (seed : ℕ) :
    SimulationInfo :=
  { totalNeurons := cols * rows
    epochDuration := growthEpochDuration
    maxSteps := (Int.floor maxGrowthSteps).toNat
    maxFiringRate := maxFiringRate
    maxSynapsesPerNeuron := maxSynapsesPerNeuron
    width := cols
    height := rows
    deltaT := new_deltaT
    seed := seed }

/-- The per-epoch tick count computed inside `Simulator::advanceUntilGrowth`:
`static_cast<uint64_t>(m_sim_info.epochDuration / m_sim_info.deltaT)`,
i.e. the quotient truncated to an integer (floor on nonnegative values). -/
def ticksPerEpoch (si : SimulationInfo) : ℕ :=
  (Int.floor (si.epochDuration / si.deltaT)).toNat

/-- Observable scheduler actions: one `network->advance()` call,
or one `network->updateConnections(currentStep)` call. -/
inductive SimEvent where
  | advance : SimEvent
  | growth : ℕ → SimEvent
deriving DecidableEq, Repr

/-- The state threaded through `Simulator::simulate`: the global tick
counter `g_simulationStep` plus the (abstract) network it drives. -/
structure SimState (Net : Type) where
  g_simulationStep : ℕ
  network : Net

variable {Net : Type}

/-- Body of the `while (g_simulationStep < endStep)` loop of
`Simulator::advanceUntilGrowth`, unrolled for a given iteration count:
each iteration calls `network->advance()` and then increments
`g_simulationStep` by one, emitting one `SimEvent.advance`. -/
def advanceLoopT (adv : Net → Net) : ℕ → SimState Net → SimState Net × List SimEvent
  | 0, st => (st, [])
  | n + 1, st =>
    let st' : SimState Net := ⟨st.g_simulationStep + 1, adv st.network⟩
    let r := advanceLoopT adv n st'
    (r.1, SimEvent.advance :: r.2)

/-- Embedding of `Simulator::advanceUntilGrowth`: it computes
`endStep = g_simulationStep + (uint64_t)(epochDuration / deltaT)` and runs
the advance loop while `g_simulationStep < endStep`; since each iteration
increments the counter by exactly one, the loop executes
`endStep - g_simulationStep = ticksPerEpoch si` iterations. -/
def advanceUntilGrowthT (adv : Net → Net) (si : SimulationInfo)
    (st : SimState Net) : SimState Net × List SimEvent :=
  let endStep := st.g_simulationStep + ticksPerEpoch si
  advanceLoopT adv (endStep - st.g_simulationStep) st

/-- Embedding of the `for (currentStep = 1; currentStep <= maxSteps; ...)`
loop of `Simulator::simulate`, written by recursion on the number of
remaining iterations (`remaining = maxSteps - currentStep + 1`): each
iteration advances the network for one epoch (`advanceUntilGrowth`) and
then calls `network->updateConnections(currentStep)` once. -/
def simulateFrom (adv : Net → Net) (upd : ℕ → Net → Net) (si : SimulationInfo) :
    ℕ → ℕ → SimState Net → SimState Net × List SimEvent
  | 0, _, st => (st, [])
  | r + 1, currentStep, st =>
    let a := advanceUntilGrowthT adv si st
    let st2 : SimState Net := ⟨a.1.g_simulationStep, upd currentStep a.1.network⟩
    let rest := simulateFrom adv upd si r (currentStep + 1) st2
    (rest.1, a.2 ++ SimEvent.growth currentStep :: rest.2)

/-- Embedding of `Simulator::simulate`, started (as in the driver `main`)
with the global tick counter at its initial value `0`. -/
def simulate (adv : Net → Net) (upd : ℕ → Net → Net) (si : SimulationInfo)
    (net0 : Net) : SimState Net × List SimEvent :=
  simulateFrom adv upd si si.maxSteps 1 ⟨0, net0⟩

/-- The simulation end time written by `Simulator::saveState`:
`g_simulationStep * m_sim_info.deltaT`, read off after the run. -/
def savedSimulationEndTime (adv : Net → Net) (upd : ℕ → Net → Net)
    (si : SimulationInfo) (net0 : Net) : ℚ :=
  ((simulate adv upd si net0).1.g_simulationStep : ℚ) * si.deltaT

/-- The exception type thrown by `LoadSimParms`
(`KII_exception` in the driver source). -/
structure KIIException where
  msg : String
deriving DecidableEq, Repr

/-- The single aggregated error value thrown at the end of `LoadSimParms`
when one or more required parameters failed to parse. -/
def loadFailure : KIIException :=
  ⟨"Failed to initialize one or more simulation parameters; check XML"⟩

/-- The raw parameter file as seen by `LoadSimParms`: each required field
is `some v` when the corresponding `Query...Attribute` call succeeds and
`none` when the element or attribute is missing or malformed
(`!= TIXML_SUCCESS`). -/
structure RawSimParams where
  poolSizeX : Option Int
  poolSizeY : Option Int
  poolSizeZ : Option Int
  tsim : Option ℚ
  numSims : Option Int
  maxFiringRate : Option Int
  maxSynapsesPerNeuron : Option Int
  stateOutputFileName : Option String
  seedValue : Option Int
deriving DecidableEq, Repr

/-- Successfully loaded simulation parameters (the driver's globals
`poolsize`, `Tsim`, `numSims`, `maxFiringRate`, `maxSynapsesPerNeuron`,
`stateOutputFileName`, `seed` after `LoadSimParms` returns). -/
structure SimParamsLoaded where
  poolSizeX : Int
  poolSizeY : Int
  poolSizeZ : Int
  tsim : ℚ
  numSims : Int
  maxFiringRate : Int
  maxSynapsesPerNeuron : Int
  stateOutputFileName : String
  seedValue : Int
deriving DecidableEq, Repr

/-- Embedding of `LoadSimParms` from the driver: every required field is
checked in sequence; any failure clears the flag `fSet` (but checking
continues), and after all checks a single `KII_exception` is thrown
iff `fSet` is false. -/
def LoadSimParms (raw : RawSimParams) : Except KIIException SimParamsLoaded :=
  let fSet := raw.poolSizeX.isSome && raw.poolSizeY.isSome && raw.poolSizeZ.isSome
      && raw.tsim.isSome && raw.numSims.isSome && raw.maxFiringRate.isSome
      && raw.maxSynapsesPerNeuron.isSome && raw.stateOutputFileName.isSome
      && raw.seedValue.isSome
  if fSet then
    Except.ok
      { poolSizeX := raw.poolSizeX.getD 0
        poolSizeY := raw.poolSizeY.getD 0
        poolSizeZ := raw.poolSizeZ.getD 0
        tsim := raw.tsim.getD 0
        numSims := raw.numSims.getD 0
        maxFiringRate := raw.maxFiringRate.getD 0
        maxSynapsesPerNeuron := raw.maxSynapsesPerNeuron.getD 0
        stateOutputFileName := raw.stateOutputFileName.getD ("")
        seedValue := raw.seedValue.getD 0 }
  else Except.error loadFailure

/-- The number of `network->advance()` calls executed by the driver `main`:
when `LoadSimParms` throws, `load_simulation_parameters` reports failure and
`main` returns before a simulator is ever constructed, so no simulation
step runs; otherwise `simulator->simulate()` runs the full schedule. -/
def driverAdvanceCount (raw : RawSimParams) (deltaT : ℚ) : ℕ :=
  match LoadSimParms raw with
  | Except.error _ => 0
  | Except.ok p =>
    let si := makeSimulationInfo p.poolSizeX.toNat p.poolSizeY.toNat
      p.tsim (p.numSims : ℚ) p.maxFiringRate.toNat p.maxSynapsesPerNeuron.toNat
      deltaT p.seedValue.toNat
    si.maxSteps * ticksPerEpoch si

/-- The growth parameters of `LIFModel::GrowthParams`
(`LIFModel.h`): `epsilon`, `beta`, `rho`, `targetRate`,
`maxRate = targetRate / epsilon`, `minRadius`, `startRadius`. -/
structure GrowthParams where
  epsilon : ℚ
  beta : ℚ
  rho : ℚ
  targetRate : ℚ
  maxRate : ℚ
  minRadius : ℚ
  startRadius : ℚ
deriving DecidableEq, Repr

/-- Modelled from the spec: the per-tick state owned by the
neuron/synapse banks (`NeuronBank.step` / `SynapseBank.step` bodies are
not among the analysed sources).  It holds the membrane voltages, the
epoch-scoped spike counts, the current connectivity (ordered
source/target pairs) and the position of the single seeded
random-number stream. -/
structure TickState where
  voltages : List ℚ
  spikeCounts : List ℕ
  connectivity : List (ℕ × ℕ)
  rng : ℕ
deriving DecidableEq, Repr

/-- Modelled from the spec: the state owned by the connection-growth
engine (`LIFModel::Connections`; its method bodies are not among the
analysed sources): current radii plus the epoch-indexed radius and rate
history matrices, one row appended per epoch. -/
structure GrowthState where
  tickSt : TickState
  radii : List ℚ
  radiiHistory : List (List ℚ)
  ratesHistory : List (List ℚ)
deriving DecidableEq, Repr

/-- The complete simulation state: the global tick counter, the number
of completed epochs, and the network state. -/
structure SimFull where
  g_simulationStep : ℕ
  currentEpoch : ℕ
  net : GrowthState
deriving DecidableEq, Repr

/-- Modelled from the spec: the numeric kernels of the model whose
implementation files are not among the analysed sources, kept as pure
function parameters.  `advanceTick` is one `NeuronBank.step` followed by
one `SynapseBank.step` (exponential-Euler voltage update, spike fan-out,
delay-queue delivery); `outgrowthOf` is the logistic outgrowth law of
growth step 2; `rewire` is the overlap-area creation/removal decision of
growth steps 4–5; `vInit` is the initial membrane voltage. -/
structure LIFDynamics where
  advanceTick : TickState → TickState
  outgrowthOf : GrowthParams → ℚ → ℚ
  rewire : List ℚ → List (ℕ × ℕ) → List (ℕ × ℕ)
  vInit : ℚ

/-- Modelled from the spec: growth step 3 — the radius update
`radius[i] = max(minRadius, radius[i] + deltaR[i])` applied pointwise. -/
def updateRadii (minRadius : ℚ) (radii deltaR : List ℚ) : List ℚ :=
  List.zipWith (fun r d => max minRadius (r + d)) radii deltaR

/-- Modelled from the spec: one invocation of the connection-growth
engine (`network->updateConnections`) at an epoch boundary, strictly
ordered: (1) rates from epoch spike counts, spike counts reset;
(2) outgrowth; (3) radius update clamped at `minRadius`;
(4)–(5) overlap-based rewiring; (6) history rows appended. -/
def updateConnections (dyn : LIFDynamics) (gp : GrowthParams)
    (epochDuration : ℚ) (st : GrowthState) : GrowthState :=
  let rates := st.tickSt.spikeCounts.map (fun c => (c : ℚ) / epochDuration)
  let deltaR := rates.map (dyn.outgrowthOf gp)
  let newRadii := updateRadii gp.minRadius st.radii deltaR
  let newConn := dyn.rewire newRadii st.tickSt.connectivity
  { tickSt :=
      { voltages := st.tickSt.voltages
        spikeCounts := List.replicate st.tickSt.spikeCounts.length 0
        connectivity := newConn
        rng := st.tickSt.rng }
    radii := newRadii
    radiiHistory := st.radiiHistory ++ [newRadii]
    ratesHistory := st.ratesHistory ++ [rates] }

/-- `n` consecutive per-tick network advances. -/
def advanceNTicks (dyn : LIFDynamics) : ℕ → TickState → TickState
  | 0, ts => ts
  | n + 1, ts => advanceNTicks dyn n (dyn.advanceTick ts)

/-- One full epoch of the scheduler: `ticksPerEpoch` network advances
(each also incrementing `g_simulationStep`), then one growth update,
then the epoch counter is incremented. -/
def oneEpochFull (dyn : LIFDynamics) (gp : GrowthParams) (si : SimulationInfo)
    (s : SimFull) : SimFull :=
  let ts := advanceNTicks dyn (ticksPerEpoch si) s.net.tickSt
  let net1 : GrowthState :=
    { tickSt := ts
      radii := s.net.radii
      radiiHistory := s.net.radiiHistory
      ratesHistory := s.net.ratesHistory }
  { g_simulationStep := s.g_simulationStep + ticksPerEpoch si
    currentEpoch := s.currentEpoch + 1
    net := updateConnections dyn gp si.epochDuration net1 }

/-- Runs `n` consecutive epochs. -/
def runFull (dyn : LIFDynamics) (gp : GrowthParams) (si : SimulationInfo) :
    ℕ → SimFull → SimFull
  | 0, s => s
  | n + 1, s => runFull dyn gp si n (oneEpochFull dyn gp si s)

/-- Modelled from the spec: the initial state built from the
configuration and the seed (`createAllNeurons` and the `Connections`
constructor are not among the analysed sources): tick counter and epoch
counter zero, all neurons at the initial voltage, radii at
`startRadius`, a starter topology with no grown synapses, empty
histories, and the random stream positioned at the seed. -/
def initState (dyn : LIFDynamics) (gp : GrowthParams) (si : SimulationInfo) :
    SimFull :=
  { g_simulationStep := 0
    currentEpoch := 0
    net :=
      { tickSt :=
          { voltages := List.replicate si.totalNeurons dyn.vInit
            spikeCounts := List.replicate si.totalNeurons 0
            connectivity := []
            rng := si.seed }
        radii := List.replicate si.totalNeurons gp.startRadius
        radiiHistory := []
        ratesHistory := [] } }

/-- Modelled from the spec: the checkpoint contents
(`Network::writeSimMemory` / `Network::readSimMemory` bodies are not
among the analysed sources; §6 of the spec lists per-neuron state,
per-synapse state, the growth-history matrices, and requires the tick
counter and epoch index to resume exactly). -/
structure Checkpoint where
  tick : ℕ
  epoch : ℕ
  voltages : List ℚ
  spikeCounts : List ℕ
  connectivity : List (ℕ × ℕ)
  rng : ℕ
  radii : List ℚ
  radiiHistory : List (List ℚ)
  ratesHistory : List (List ℚ)
deriving DecidableEq, Repr

/-- Modelled from the spec: `Simulator::saveMemory`
(via `Network::writeSimMemory`) serializes the complete state. -/
def saveMemory (s : SimFull) : Checkpoint :=
  { tick := s.g_simulationStep
    epoch := s.currentEpoch
    voltages := s.net.tickSt.voltages
    spikeCounts := s.net.tickSt.spikeCounts
    connectivity := s.net.tickSt.connectivity
    rng := s.net.tickSt.rng
    radii := s.net.radii
    radiiHistory := s.net.radiiHistory
    ratesHistory := s.net.ratesHistory }

/-- Modelled from the spec: `Simulator::readMemory`
(via `Network::readSimMemory`) restores the complete state, resuming
the tick counter and the epoch index exactly. -/
def readMemory (c : Checkpoint) : SimFull :=
  { g_simulationStep := c.tick
    currentEpoch := c.epoch
    net :=
      { tickSt :=
          { voltages := c.voltages
            spikeCounts := c.spikeCounts
            connectivity := c.connectivity
            rng := c.rng }
        radii := c.radii
        radiiHistory := c.radiiHistory
        ratesHistory := c.ratesHistory } }

/-- `LENGTH_OF_DELAYQUEUE` from `LIFModel.h`:
`sizeof(uint32_t)/sizeof(uint8_t) * 8 = 32` bit positions. -/
def LENGTH_OF_DELAYQUEUE : ℕ := 32

/-- Modelled from the spec: a synapse's fixed-width circular delay
buffer (the `SynapseBank` implementation is not among the analysed
sources; `LIFModel.h` fixes its width and the `Network` documentation
describes hold-then-deliver behaviour).  The `uint32_t` bitset is
embedded as the finite set of its set bit positions (all `< 32`). -/
abbrev DelayQueue : Type := Finset ℕ

/-- Modelled from the spec: `notify(sourceNeuron)` at tick `now` sets
the bit at position `(now + delay) mod bufferWidth`. -/
def dqNotify (q : DelayQueue) (now delay : ℕ) : DelayQueue :=
  insert ((now + delay) % LENGTH_OF_DELAYQUEUE) q

/-- Modelled from the spec: the synapse side of `step(tick)` — if the
bit for `tick mod bufferWidth` is set, clear it and deliver the charge
(`true`); otherwise do nothing (`false`). -/
def dqStep (q : DelayQueue) (tick : ℕ) : DelayQueue × Bool :=
  let idx := tick % LENGTH_OF_DELAYQUEUE
  if idx ∈ q then (q.erase idx, true) else (q, false)

/-- Runs `dqStep` for `n` consecutive ticks starting at `tick`,
collecting the ticks at which a delivery occurred. -/
def dqRun (q : DelayQueue) (tick : ℕ) : ℕ → DelayQueue × List ℕ
  | 0 => (q, [])
  | n + 1 =>
    let s := dqStep q tick
    let r := dqRun s.1 (tick + 1) n
    (r.1, (if s.2 then [tick] else []) ++ r.2)

/-- A trivial instantiation of the abstract numeric kernels, used to
evaluate the generic theorems on concrete inputs. -/
def dynTrivial : LIFDynamics :=
  { advanceTick := fun ts => ts
    outgrowthOf := fun _ _ => 0
    rewire := fun _ conn => conn
    vInit := 0 }

/-- The growth parameters of the `test-tiny` validation configuration. -/
def gpTiny : GrowthParams :=
  { epsilon := 6/10
    beta := 1/10
    rho := 1/10000
    targetRate := 19/10
    maxRate := (19/10) / (6/10)
    minRadius := 1/10
    startRadius := 4/10 }

/-- A small configuration on the integer tick grid: 4 neurons,
`epochDuration = 4`, `deltaT = 1`, 2 epochs. -/
def siTiny : SimulationInfo :=
  { totalNeurons := 4
    epochDuration := 4
    maxSteps := 2
    maxFiringRate := 200
    maxSynapsesPerNeuron := 200
    width := 2
    height := 2
    deltaT := 1
    seed := 1 }

/-- A configuration whose `epochDuration / deltaT` is not an integer:
`3 / 2`, so the truncated per-epoch tick count is `1`. -/
def siBad : SimulationInfo :=
  { totalNeurons := 4
    epochDuration := 3
    maxSteps := 2
    maxFiringRate := 200
    maxSynapsesPerNeuron := 200
    width := 2
    height := 2
    deltaT := 2
    seed := 1 }

/-- A parameter file whose required `Tsim` attribute is missing. -/
def rawMissingTsim : RawSimParams :=
  { poolSizeX := some 2
    poolSizeY := some 2
    poolSizeZ := some 1
    tsim := none
    numSims := some 1
    maxFiringRate := some 200
    maxSynapsesPerNeuron := some 200
    stateOutputFileName := some ("test-tiny-out.xml")
    seedValue := some 1 }

/-! ## Helper lemmas about the scheduler -/

theorem advanceLoopT_g (adv : Net → Net) :
    ∀ (n : ℕ) (st : SimState Net),
      (advanceLoopT adv n st).1.g_simulationStep = st.g_simulationStep + n
  | 0, _ => rfl
  | n + 1, st => by
    show (advanceLoopT adv n
        ⟨st.g_simulationStep + 1, adv st.network⟩).1.g_simulationStep = _
    rw [advanceLoopT_g adv n]
    show st.g_simulationStep + 1 + n = _
    omega

theorem advanceLoopT_events (adv : Net → Net) :
    ∀ (n : ℕ) (st : SimState Net),
      (advanceLoopT adv n st).2 = List.replicate n SimEvent.advance
  | 0, _ => rfl
  | n + 1, st => by
    show SimEvent.advance :: (advanceLoopT adv n
        ⟨st.g_simulationStep + 1, adv st.network⟩).2 = _
    rw [advanceLoopT_events adv n]
    rfl

theorem advanceUntilGrowthT_eq (adv : Net → Net) (si : SimulationInfo)
    (st : SimState Net) :
    advanceUntilGrowthT adv si st = advanceLoopT adv (ticksPerEpoch si) st := by
  show advanceLoopT adv
      (st.g_simulationStep + ticksPerEpoch si - st.g_simulationStep) st = _
  rw [Nat.add_sub_cancel_left]

theorem simulateFrom_g (adv : Net → Net) (upd : ℕ → Net → Net) (si : SimulationInfo) :
    ∀ (r currentStep : ℕ) (st : SimState Net),
      (simulateFrom adv upd si r currentStep st).1.g_simulationStep
        = st.g_simulationStep + r * ticksPerEpoch si
  | 0, _, st => by simp [simulateFrom]
  | r + 1, c, st => by
    show (simulateFrom adv upd si r (c + 1)
        ⟨(advanceUntilGrowthT adv si st).1.g_simulationStep,
          upd c (advanceUntilGrowthT adv si st).1.network⟩).1.g_simulationStep = _
    rw [simulateFrom_g adv upd si r]
    show (advanceUntilGrowthT adv si st).1.g_simulationStep
        + r * ticksPerEpoch si = _
    rw [advanceUntilGrowthT_eq, advanceLoopT_g]
    ring

theorem simulateFrom_events (adv : Net → Net) (upd : ℕ → Net → Net) (si : SimulationInfo) :
    ∀ (r currentStep : ℕ) (st : SimState Net),
      (simulateFrom adv upd si r currentStep st).2
        = (List.range' currentStep r).flatMap
            (fun k => List.replicate (ticksPerEpoch si) SimEvent.advance
              ++ [SimEvent.growth k])
  | 0, _, st => by simp [simulateFrom]
  | r + 1, c, st => by
    rw [List.range'_succ]
    show (advanceUntilGrowthT adv si st).2
        ++ SimEvent.growth c
          :: (simulateFrom adv upd si r (c + 1)
            ⟨(advanceUntilGrowthT adv si st).1.g_simulationStep,
              upd c (advanceUntilGrowthT adv si st).1.network⟩).2 = _
    rw [simulateFrom_events adv upd si r, advanceUntilGrowthT_eq,
      advanceLoopT_events]
    simp

theorem simulateFrom_count_advance (adv : Net → Net) (upd : ℕ → Net → Net)
    (si : SimulationInfo) (r currentStep : ℕ) (st : SimState Net) :
    (simulateFrom adv upd si r currentStep st).2.count SimEvent.advance
      = r * ticksPerEpoch si := by
  rw [simulateFrom_events]
  induction r generalizing currentStep with
  | zero => simp
  | succ r ih =>
    rw [List.range'_succ]
    simp only [List.flatMap_cons, List.count_append, ih]
    simp [List.count_replicate_self]
    ring

/-! ## Helper lemmas about the growth model, checkpoints and the delay queue -/

theorem runFull_add (dyn : LIFDynamics) (gp : GrowthParams) (si : SimulationInfo) :
    ∀ (a b : ℕ) (s : SimFull),
      runFull dyn gp si (a + b) s = runFull dyn gp si b (runFull dyn gp si a s)
  | 0, b, s => by rw [Nat.zero_add]; rfl
  | a + 1, b, s => by
    rw [show a + 1 + b = (a + b) + 1 from by omega]
    show runFull dyn gp si (a + b) (oneEpochFull dyn gp si s) = _
    rw [runFull_add dyn gp si a b]
    rfl

theorem readMemory_saveMemory (s : SimFull) : readMemory (saveMemory s) = s := rfl

theorem oneEpochFull_radiiHistory (dyn : LIFDynamics) (gp : GrowthParams)
    (si : SimulationInfo) (s : SimFull) :
    ∃ row : List ℚ,
      (oneEpochFull dyn gp si s).net.radiiHistory = s.net.radiiHistory ++ [row] :=
  ⟨_, rfl⟩

theorem oneEpochFull_ratesHistory (dyn : LIFDynamics) (gp : GrowthParams)
    (si : SimulationInfo) (s : SimFull) :
    ∃ row : List ℚ,
      (oneEpochFull dyn gp si s).net.ratesHistory = s.net.ratesHistory ++ [row] :=
  ⟨_, rfl⟩

theorem runFull_history (dyn : LIFDynamics) (gp : GrowthParams) (si : SimulationInfo) :
    ∀ (n : ℕ) (s : SimFull),
      ∃ t u : List (List ℚ),
        (runFull dyn gp si n s).net.radiiHistory = s.net.radiiHistory ++ t
          ∧ t.length = n
          ∧ (runFull dyn gp si n s).net.ratesHistory = s.net.ratesHistory ++ u
          ∧ u.length = n
  | 0, s => ⟨[], [], by simp [runFull], rfl, by simp [runFull], rfl⟩
  | n + 1, s => by
    obtain ⟨t, u, h1, h2, h3, h4⟩ := runFull_history dyn gp si n (oneEpochFull dyn gp si s)
    obtain ⟨row1, hrow1⟩ := oneEpochFull_radiiHistory dyn gp si s
    obtain ⟨row2, hrow2⟩ := oneEpochFull_ratesHistory dyn gp si s
    refine ⟨row1 :: t, row2 :: u, ?_, ?_, ?_, ?_⟩
    · show (runFull dyn gp si n (oneEpochFull dyn gp si s)).net.radiiHistory = _
      rw [h1, hrow1]
      simp
    · simp [h2]
    · show (runFull dyn gp si n (oneEpochFull dyn gp si s)).net.ratesHistory = _
      rw [h3, hrow2]
      simp
    · simp [h4]

theorem dqRun_succ (q : DelayQueue) (t n : ℕ) :
    dqRun q t (n + 1)
      = ((dqRun (dqStep q t).1 (t + 1) n).1,
          (if (dqStep q t).2 then [t] else [])
            ++ (dqRun (dqStep q t).1 (t + 1) n).2) := rfl

theorem dqRun_no_hit :
    ∀ (n t : ℕ) (q : DelayQueue),
      (∀ j, j < n → (t + j) % LENGTH_OF_DELAYQUEUE ∉ q) →
      dqRun q t n = (q, [])
  | 0, _, _, _ => rfl
  | n + 1, t, q, h => by
    have h0 : t % LENGTH_OF_DELAYQUEUE ∉ q := by
      simpa using h 0 (Nat.succ_pos n)
    have hstep : dqStep q t = (q, false) := by simp [dqStep, h0]
    have hrec := dqRun_no_hit n (t + 1) q (fun j hj => by
      have hh := h (j + 1) (by omega)
      rw [show t + 1 + j = t + (j + 1) from by omega]
      exact hh)
    rw [dqRun_succ, hstep]
    simp [hrec]

theorem dqRun_split :
    ∀ (a b : ℕ) (q : DelayQueue) (t : ℕ),
      dqRun q t (a + b)
        = ((dqRun (dqRun q t a).1 (t + a) b).1,
            (dqRun q t a).2 ++ (dqRun (dqRun q t a).1 (t + a) b).2)
  | 0, b, q, t => by simp [dqRun]
  | a + 1, b, q, t => by
    rw [show a + 1 + b = (a + b) + 1 from by omega, dqRun_succ,
      dqRun_split a b (dqStep q t).1 (t + 1), dqRun_succ]
    rw [show t + (a + 1) = t + 1 + a from by omega]
    simp [List.append_assoc]

/-! ## Claim theorems -/

/-- C1: for every configuration with `N = maxSteps` epochs, the
scheduler's run consists of exactly `N` iterations, each of which first
advances the network tick-by-tick for `ticksPerEpoch` ticks (one network
advance per tick) and then invokes the connection-growth update exactly
once, with no growth update mid-epoch; after the `N`-th growth update
the run finishes. -/
theorem simulate_epoch_structure (Net : Type) (adv : Net → Net)
    (upd : ℕ → Net → Net) (si : SimulationInfo) (net0 : Net) :
    (simulate adv upd si net0).2
      = (List.range' 1 si.maxSteps).flatMap
          (fun k => List.replicate (ticksPerEpoch si) SimEvent.advance
            ++ [SimEvent.growth k]) :=
  simulateFrom_events adv upd si si.maxSteps 1 ⟨0, net0⟩

/-- C2: for a run started at tick 0, the tick counter at the start of
epoch `N` (1-based, i.e. after `N - 1` completed epochs) equals exactly
`(N - 1) * ticksPerEpoch`, and the counter increases by exactly one per
network advance. -/
theorem tick_grid_exact (Net : Type) (adv : Net → Net) (upd : ℕ → Net → Net)
    (si : SimulationInfo) (net0 : Net) (N j : ℕ) (st : SimState Net)
    (hN : 1 ≤ N) :
    (simulateFrom adv upd si (N - 1) 1 ⟨0, net0⟩).1.g_simulationStep
        = (N - 1) * ticksPerEpoch si
      ∧ (advanceLoopT adv j st).1.g_simulationStep = st.g_simulationStep + j := by
  constructor
  · rw [simulateFrom_g]
    exact Nat.zero_add _
  · exact advanceLoopT_g adv j st

/-- Witness for C2 at a concrete configuration (`siTiny`, epoch `N = 2`). -/
theorem tick_grid_exact_witness :
    1 ≤ 2
      ∧ ((simulateFrom (fun u : Unit => u) (fun _ u => u) siTiny (2 - 1) 1
            ⟨0, ()⟩).1.g_simulationStep = (2 - 1) * ticksPerEpoch siTiny
        ∧ (advanceLoopT (fun u : Unit => u) 3
            (⟨5, ()⟩ : SimState Unit)).1.g_simulationStep = 5 + 3) :=
  ⟨by decide,
    tick_grid_exact Unit (fun u => u) (fun _ u => u) siTiny () 2 3 ⟨5, ()⟩
      (by decide)⟩

/-- C3: saving a checkpoint after `k` completed epochs, restoring from it
(which resumes the tick counter and epoch index exactly), and running the
remaining `N - k` epochs yields the same final state — in particular the
same histories and connectivity — as one uninterrupted run of `N` epochs
from the same initial state. -/
theorem checkpoint_roundtrip (dyn : LIFDynamics) (gp : GrowthParams)
    (si : SimulationInfo) (s0 : SimFull) (k N : ℕ) (hk : k ≤ N) :
    runFull dyn gp si (N - k) (readMemory (saveMemory (runFull dyn gp si k s0)))
        = runFull dyn gp si N s0
      ∧ (runFull dyn gp si (N - k)
            (readMemory (saveMemory (runFull dyn gp si k s0)))).net.radiiHistory
          = (runFull dyn gp si N s0).net.radiiHistory
      ∧ (runFull dyn gp si (N - k)
            (readMemory (saveMemory (runFull dyn gp si k s0)))).net.ratesHistory
          = (runFull dyn gp si N s0).net.ratesHistory
      ∧ (runFull dyn gp si (N - k)
            (readMemory (saveMemory (runFull dyn gp si k s0)))).net.tickSt.connectivity
          = (runFull dyn gp si N s0).net.tickSt.connectivity := by
  have hsplit := runFull_add dyn gp si k (N - k) s0
  rw [Nat.add_sub_cancel' hk] at hsplit
  have hmain : runFull dyn gp si (N - k)
      (readMemory (saveMemory (runFull dyn gp si k s0))) = runFull dyn gp si N s0 := by
    rw [readMemory_saveMemory, ← hsplit]
  exact ⟨hmain, by rw [hmain], by rw [hmain], by rw [hmain]⟩

/-- Witness for C3 at a concrete configuration: checkpoint after epoch 1
of a 2-epoch run. -/
theorem checkpoint_roundtrip_witness :
    1 ≤ 2
      ∧ (runFull dynTrivial gpTiny siTiny (2 - 1)
            (readMemory (saveMemory (runFull dynTrivial gpTiny siTiny 1
              (initState dynTrivial gpTiny siTiny))))
          = runFull dynTrivial gpTiny siTiny 2 (initState dynTrivial gpTiny siTiny)) :=
  ⟨by decide,
    (checkpoint_roundtrip dynTrivial gpTiny siTiny
      (initState dynTrivial gpTiny siTiny) 1 2 (by decide)).1⟩

/-- C4: for a fixed seed and fixed configuration, two independent runs
of `M` epochs produce identical radius histories, identical rate
histories and identical final connectivity: the whole trajectory is a
deterministic function of the configuration (including the seed, which
positions the single random-number stream in `initState`). -/
theorem run_deterministic (dyn : LIFDynamics) (gp : GrowthParams)
    (si : SimulationInfo) (M : ℕ) (s1 s2 : SimFull)
    (h1 : s1 = runFull dyn gp si M (initState dyn gp si))
    (h2 : s2 = runFull dyn gp si M (initState dyn gp si)) :
    s1.net.radiiHistory = s2.net.radiiHistory
      ∧ s1.net.ratesHistory = s2.net.ratesHistory
      ∧ s1.net.tickSt.connectivity = s2.net.tickSt.connectivity := by
  subst h1
  subst h2
  exact ⟨rfl, rfl, rfl⟩

/-- Witness for C4: two 1-epoch runs of the concrete tiny configuration. -/
theorem run_deterministic_witness :
    (runFull dynTrivial gpTiny siTiny 1
          (initState dynTrivial gpTiny siTiny)).net.radiiHistory
        = (runFull dynTrivial gpTiny siTiny 1
            (initState dynTrivial gpTiny siTiny)).net.radiiHistory
      ∧ (runFull dynTrivial gpTiny siTiny 1
            (initState dynTrivial gpTiny siTiny)).net.ratesHistory
          = (runFull dynTrivial gpTiny siTiny 1
              (initState dynTrivial gpTiny siTiny)).net.ratesHistory
      ∧ (runFull dynTrivial gpTiny siTiny 1
            (initState dynTrivial gpTiny siTiny)).net.tickSt.connectivity
          = (runFull dynTrivial gpTiny siTiny 1
              (initState dynTrivial gpTiny siTiny)).net.tickSt.connectivity :=
  run_deterministic dynTrivial gpTiny siTiny 1 _ _ rfl rfl

/-- C5 counterexample: `siBad` has a non-integral `epochDuration / deltaT`
(`3 / 2`), yet the scheduler does not abort before any simulation step —
its run executes a nonzero number of network advances (no
`ConfigurationError` path exists in `Simulator::advanceUntilGrowth`). -/
theorem no_configuration_error_cex :
    (siBad.epochDuration / siBad.deltaT).den ≠ 1
      ∧ (simulate (fun u : Unit => u) (fun _ u => u) siBad ()).2.count
          SimEvent.advance ≠ 0 := by
  constructor
  · show ((3 : ℚ) / 2).den ≠ 1
    norm_num
  · have h := simulateFrom_count_advance (fun u : Unit => u) (fun _ u => u)
      siBad siBad.maxSteps 1 ⟨0, ()⟩
    rw [show ticksPerEpoch siBad = 1 from by norm_num [ticksPerEpoch, siBad]] at h
    show (simulateFrom (fun u : Unit => u) (fun _ u => u) siBad
        siBad.maxSteps 1 ⟨0, ()⟩).2.count SimEvent.advance ≠ 0
    rw [h]
    decide

/-- C5 (amended): the scheduler performs no integrality check on
`epochDuration / deltaT` and never fails; for every configuration it runs
all `maxSteps` epochs, performing exactly
`⌊epochDuration / deltaT⌋ = ticksPerEpoch` network advances per epoch
(a fractional remainder is silently truncated). -/
theorem truncated_ticks_per_epoch (Net : Type) (adv : Net → Net)
    (upd : ℕ → Net → Net) (si : SimulationInfo) (net0 : Net) :
    (simulate adv upd si net0).2.count SimEvent.advance
      = si.maxSteps * ticksPerEpoch si :=
  simulateFrom_count_advance adv upd si si.maxSteps 1 ⟨0, net0⟩

/-- C6: whenever one or more required parameter fields are missing or
malformed, `LoadSimParms` fails with the single aggregated
`KII_exception`, and the driver runs zero simulation steps (it returns
before a simulator is constructed). -/
theorem load_fail_fast (raw : RawSimParams) (deltaT : ℚ)
    (h : raw.poolSizeX = none ∨ raw.poolSizeY = none ∨ raw.poolSizeZ = none
      ∨ raw.tsim = none ∨ raw.numSims = none ∨ raw.maxFiringRate = none
      ∨ raw.maxSynapsesPerNeuron = none ∨ raw.stateOutputFileName = none
      ∨ raw.seedValue = none) :
    LoadSimParms raw = Except.error loadFailure
      ∧ driverAdvanceCount raw deltaT = 0 := by
  have herr : LoadSimParms raw = Except.error loadFailure := by
    unfold LoadSimParms
    rcases h with h | h | h | h | h | h | h | h | h <;> simp [h]
  refine ⟨herr, ?_⟩
  unfold driverAdvanceCount
  rw [herr]

/-- Witness for C6: a parameter file whose `Tsim` attribute is missing. -/
theorem load_fail_fast_witness :
    rawMissingTsim.tsim = none
      ∧ (LoadSimParms rawMissingTsim = Except.error loadFailure
        ∧ driverAdvanceCount rawMissingTsim 1 = 0) :=
  ⟨rfl, load_fail_fast rawMissingTsim 1 (Or.inr (Or.inr (Or.inr (Or.inl rfl))))⟩

/-- C7: after the growth engine's radius update
`radius[i] = max(minRadius, radius[i] + deltaR[i])`, every updated radius
is at least `minRadius`, however negative the outgrowth `deltaR[i]` is. -/
theorem radius_clamped (minRadius : ℚ) (radii deltaR : List ℚ) (i : ℕ)
    (h : i < (updateRadii minRadius radii deltaR).length) :
    minRadius ≤ (updateRadii minRadius radii deltaR).getD i 0 := by
  rw [List.getD_eq_getElem _ _ h]
  simp only [updateRadii, List.getElem_zipWith]
  exact le_max_left _ _

/-- Witness for C7: one neuron at radius `2/5` receiving outgrowth `-5`
is clamped at `minRadius = 1/10`. -/
theorem radius_clamped_witness :
    0 < (updateRadii (1/10) [2/5] [-5]).length
      ∧ (1 : ℚ)/10 ≤ (updateRadii (1/10) [2/5] [-5]).getD 0 0 :=
  ⟨by decide, radius_clamped (1/10) [2/5] [-5] 0 (by decide)⟩

/-- C8: the growth histories are strictly append-only — starting from
empty histories, after `m` epochs each history has exactly `m` rows, and
the rows present after `m` epochs coincide with the first `m` rows
present after any later epoch count `N ≥ m` (no operation rewrites a
prior epoch's row). -/
theorem history_append_only (dyn : LIFDynamics) (gp : GrowthParams)
    (si : SimulationInfo) (s0 : SimFull) (m N : ℕ) (hmN : m ≤ N)
    (hr : s0.net.radiiHistory = []) (ht : s0.net.ratesHistory = []) :
    (runFull dyn gp si m s0).net.radiiHistory.length = m
      ∧ (runFull dyn gp si m s0).net.ratesHistory.length = m
      ∧ (runFull dyn gp si N s0).net.radiiHistory.take m
          = (runFull dyn gp si m s0).net.radiiHistory
      ∧ (runFull dyn gp si N s0).net.ratesHistory.take m
          = (runFull dyn gp si m s0).net.ratesHistory := by
  obtain ⟨t, u, h1, h2, h3, h4⟩ := runFull_history dyn gp si m s0
  have hlenr : (runFull dyn gp si m s0).net.radiiHistory.length = m := by
    rw [h1, hr, List.nil_append, h2]
  have hlent : (runFull dyn gp si m s0).net.ratesHistory.length = m := by
    rw [h3, ht, List.nil_append, h4]
  have hsplit := runFull_add dyn gp si m (N - m) s0
  rw [Nat.add_sub_cancel' hmN] at hsplit
  obtain ⟨t', u', h1', h2', h3', h4'⟩ :=
    runFull_history dyn gp si (N - m) (runFull dyn gp si m s0)
  refine ⟨hlenr, hlent, ?_, ?_⟩
  · have htake := List.take_left (runFull dyn gp si m s0).net.radiiHistory t'
    rw [hlenr] at htake
    rw [hsplit, h1']
    exact htake
  · have htake := List.take_left (runFull dyn gp si m s0).net.ratesHistory u'
    rw [hlent] at htake
    rw [hsplit, h3']
    exact htake

/-- Witness for C8: two epochs of the concrete tiny configuration,
inspected after epoch 1 and after epoch 2. -/
theorem history_append_only_witness :
    1 ≤ 2
      ∧ ((runFull dynTrivial gpTiny siTiny 1
            (initState dynTrivial gpTiny siTiny)).net.radiiHistory.length = 1
        ∧ (runFull dynTrivial gpTiny siTiny 1
            (initState dynTrivial gpTiny siTiny)).net.ratesHistory.length = 1
        ∧ (runFull dynTrivial gpTiny siTiny 2
              (initState dynTrivial gpTiny siTiny)).net.radiiHistory.take 1
            = (runFull dynTrivial gpTiny siTiny 1
                (initState dynTrivial gpTiny siTiny)).net.radiiHistory
        ∧ (runFull dynTrivial gpTiny siTiny 2
              (initState dynTrivial gpTiny siTiny)).net.ratesHistory.take 1
            = (runFull dynTrivial gpTiny siTiny 1
                (initState dynTrivial gpTiny siTiny)).net.ratesHistory) :=
  ⟨by decide,
    history_append_only dynTrivial gpTiny siTiny
      (initState dynTrivial gpTiny siTiny) 1 2 (by decide) rfl rfl⟩

/-- C9: a spike notified at tick `T` on a synapse with delay `d`
(`1 ≤ d ≤ bufferWidth`) sets the bit at position
`(T + d) mod bufferWidth`; stepping the following `d` ticks delivers the
charge exactly once, exactly at tick `T + d`, and clears the bit upon
consumption (final queue empty): no double delivery and no loss. -/
theorem delay_queue_exactly_once (T d : ℕ) (h1 : 1 ≤ d)
    (h2 : d ≤ LENGTH_OF_DELAYQUEUE) :
    dqRun (dqNotify ∅ T d) (T + 1) d = (∅, [T + d]) := by
  have h2' : d ≤ 32 := h2
  have hstep1 : dqRun (dqNotify ∅ T d) (T + 1) (d - 1) = (dqNotify ∅ T d, []) := by
    apply dqRun_no_hit
    intro j hj
    simp only [dqNotify, Finset.mem_insert, Finset.not_mem_empty, or_false]
    show ¬(T + 1 + j) % 32 = (T + d) % 32
    omega
  have hmem : (T + d) % LENGTH_OF_DELAYQUEUE ∈ (dqNotify ∅ T d : Finset ℕ) := by
    simp [dqNotify]
  have herase : (dqNotify ∅ T d : Finset ℕ).erase
      ((T + d) % LENGTH_OF_DELAYQUEUE) = ∅ :=
    Finset.erase_insert (Finset.not_mem_empty _)
  have hstep : dqStep (dqNotify ∅ T d) (T + d) = (∅, true) := by
    simp [dqStep, hmem, herase]
  have hfin : dqRun (dqNotify ∅ T d) (T + d) 1 = (∅, [T + d]) := by
    rw [dqRun_succ, hstep]
    simp [dqRun]
  have hs := dqRun_split (d - 1) 1 (dqNotify ∅ T d) (T + 1)
  rw [show d - 1 + 1 = d from by omega] at hs
  rw [hs, hstep1, show T + 1 + (d - 1) = T + d from by omega]
  simp [hfin]

/-- Witness for C9: delay 8 on a spike notified at tick 5 is delivered
exactly at tick 13. -/
theorem delay_queue_exactly_once_witness :
    1 ≤ 8 ∧ 8 ≤ LENGTH_OF_DELAYQUEUE
      ∧ dqRun (dqNotify ∅ 5 8) (5 + 1) 8 = (∅, [5 + 8]) :=
  ⟨by decide, by decide, delay_queue_exactly_once 5 8 (by decide) (by decide)⟩

/-- Auxiliary concrete fact: `siBad`'s tick quotient `3 / 2` is not an
integer. -/
theorem siBad_nonintegral : (siBad.epochDuration / siBad.deltaT).den ≠ 1 := by
  show ((3 : ℚ) / 2).den ≠ 1
  norm_num

/-- C10: after an uninterrupted run started at tick 0, the saved state's
reported simulation end time equals `g_simulationStep * deltaT` with
`g_simulationStep = maxSteps * ⌊epochDuration / deltaT⌋`; when the
quotient is not integral the reported total simulated time is strictly
less than `maxSteps * epochDuration` (the per-epoch tick count is
truncated, not checked). -/
theorem saved_end_time (Net : Type) (adv : Net → Net) (upd : ℕ → Net → Net)
    (si : SimulationInfo) (net0 : Net)
    (hdt : 0 < si.deltaT) (hed : 0 ≤ si.epochDuration) (hms : 1 ≤ si.maxSteps)
    (hden : (si.epochDuration / si.deltaT).den ≠ 1) :
    savedSimulationEndTime adv upd si net0
        = ((si.maxSteps * ticksPerEpoch si : ℕ) : ℚ) * si.deltaT
      ∧ savedSimulationEndTime adv upd si net0
          < (si.maxSteps : ℚ) * si.epochDuration := by
  have hg : (simulate adv upd si net0).1.g_simulationStep
      = si.maxSteps * ticksPerEpoch si := by
    show (simulateFrom adv upd si si.maxSteps 1 ⟨0, net0⟩).1.g_simulationStep = _
    rw [simulateFrom_g]
    exact Nat.zero_add _
  have heq : savedSimulationEndTime adv upd si net0
      = ((si.maxSteps * ticksPerEpoch si : ℕ) : ℚ) * si.deltaT := by
    unfold savedSimulationEndTime
    rw [hg]
  refine ⟨heq, ?_⟩
  rw [heq]
  have hdt' : si.deltaT ≠ 0 := ne_of_gt hdt
  have hq0 : 0 ≤ si.epochDuration / si.deltaT := div_nonneg hed (le_of_lt hdt)
  have hfl0 : 0 ≤ Int.floor (si.epochDuration / si.deltaT) := Int.floor_nonneg.2 hq0
  have hlt : ((Int.floor (si.epochDuration / si.deltaT) : ℤ) : ℚ)
      < si.epochDuration / si.deltaT := by
    rcases lt_or_eq_of_le (Int.floor_le (si.epochDuration / si.deltaT)) with h | h
    · exact h
    · exact absurd (h ▸ Rat.den_intCast (Int.floor (si.epochDuration / si.deltaT)))
        hden
  have hcast : ((ticksPerEpoch si : ℕ) : ℚ)
      = ((Int.floor (si.epochDuration / si.deltaT) : ℤ) : ℚ) := by
    unfold ticksPerEpoch
    exact_mod_cast congrArg (fun z : ℤ => (z : ℚ)) (Int.toNat_of_nonneg hfl0)
  have hstep : ((ticksPerEpoch si : ℕ) : ℚ) * si.deltaT < si.epochDuration := by
    rw [hcast]
    calc ((Int.floor (si.epochDuration / si.deltaT) : ℤ) : ℚ) * si.deltaT
        < si.epochDuration / si.deltaT * si.deltaT :=
          mul_lt_mul_of_pos_right hlt hdt
      _ = si.epochDuration := div_mul_cancel₀ _ hdt'
  have hms' : (0 : ℚ) < (si.maxSteps : ℚ) := by
    have h1 : (1 : ℚ) ≤ (si.maxSteps : ℚ) := by exact_mod_cast hms
    linarith
  calc ((si.maxSteps * ticksPerEpoch si : ℕ) : ℚ) * si.deltaT
      = (si.maxSteps : ℚ) * (((ticksPerEpoch si : ℕ) : ℚ) * si.deltaT) := by
        push_cast
        ring
    _ < (si.maxSteps : ℚ) * si.epochDuration := mul_lt_mul_of_pos_left hstep hms'

/-- Witness for C10 at the non-integral configuration `siBad`. -/
theorem saved_end_time_witness :
    0 < siBad.deltaT ∧ 0 ≤ siBad.epochDuration ∧ 1 ≤ siBad.maxSteps
      ∧ (siBad.epochDuration / siBad.deltaT).den ≠ 1
      ∧ (savedSimulationEndTime (fun u : Unit => u) (fun _ u => u) siBad ()
            = ((siBad.maxSteps * ticksPerEpoch siBad : ℕ) : ℚ) * siBad.deltaT
        ∧ savedSimulationEndTime (fun u : Unit => u) (fun _ u => u) siBad ()
            < (siBad.maxSteps : ℚ) * siBad.epochDuration) :=
  ⟨by decide, by decide, by decide, siBad_nonintegral,
    saved_end_time Unit (fun u => u) (fun _ u => u) siBad ()
      (by decide) (by decide) (by decide) siBad_nonintegral⟩
